import Mathlib

/-!
# DAQmx-Wrapper: a verification development of `daqmx.cpp`

`daqmx.cpp` wraps the NI-DAQmx driver: every member function of `Task` makes
one to three driver calls and turns a negative status into a `DAQException`.

The embedding is by explicit state passing.

* The driver is an external collaborator.  It is modelled as an arbitrary
  function `Driver` from the calls issued so far and the current call to a
  `Response` (the returned status and the values written through the output
  pointers).  Every theorem quantifies over all drivers.
* The calls a member function issues are appended to a trace
  (`List DriverCall`), recording each argument the source passes.
* A member function returns a `Step`: its outcome (a value, or the exception
  thrown), the task object afterwards and the trace afterwards.
* `double` is IEEE 754 binary64 with round-to-nearest-even, `int32` is a
  32-bit signed integer, `int` is a mathematical integer (the source does no
  arithmetic on its `int` values).
* Memory allocation is assumed to succeed.
-/

namespace NIDAQmx

/-! ## Machine numbers -/

/-- The type `innards::int32`: a 32-bit signed integer. -/
abbrev int32 := { v : Int // -2147483648 ≤ v ∧ v ≤ 2147483647 }

/-- Position of the highest set bit of `n` (0 for `n < 2`), found by halving at
most `fuel` times. -/
def log2Aux : Nat → Nat → Nat
  | 0, _ => 0
  | fuel + 1, n => if n < 2 then 0 else log2Aux fuel (n / 2) + 1

/-- Position of the highest set bit of `n`. -/
def ilog2 (n : Nat) : Nat := log2Aux n n

/-- A `double`: IEEE 754 binary64.  A finite value is `(-1)^sign * m * 2^e` in
the encoding of the format: `m < 2^53`, `-1074 ≤ e ≤ 971`, and `2^52 ≤ m`
(normal) or `e = -1074` (subnormal or zero). -/
inductive Double where
  | finite (sign : Bool) (m : Nat) (e : Int)
  | inf (sign : Bool)
  | nan
  deriving DecidableEq

/-- The exponent `k` with `2^k ≤ n/d < 2^(k+1)`, for positive `n` and `d`. -/
def floorLog2 (n d : Nat) : Int :=
  let k : Int := (ilog2 n : Int) - (ilog2 d : Int)
  if 0 ≤ k then (if d * 2 ^ k.toNat ≤ n then k else k - 1)
  else (if d ≤ n * 2 ^ (-k).toNat then k else k - 1)

/-- The integer nearest to `num / den`, ties going to the even one. -/
def roundHalfEven (num den : Nat) : Nat :=
  let q := num / den
  let r := num % den
  if 2 * r < den then q
  else if den < 2 * r then q + 1
  else if q % 2 = 0 then q else q + 1

/-- The `double` nearest to `(-1)^sign * n / d` (round to nearest, ties to
even; overflow gives an infinity, underflow a subnormal or zero). -/
def Double.round (sign : Bool) (n d : Nat) : Double :=
  if n = 0 then .finite sign 0 (-1074)
  else
    let e : Int := max (floorLog2 n d - 52) (-1074)
    let m := if 0 ≤ e then roundHalfEven n (d * 2 ^ e.toNat) else roundHalfEven (n * 2 ^ (-e).toNat) d
    let e := if m = 2 ^ 53 then e + 1 else e
    let m := if m = 2 ^ 53 then 2 ^ 52 else m
    if 971 < e then .inf sign else .finite sign m e

/-- A non-negative decimal literal of the source, `n / d` as written, as the
compiler converts it: `10.0` is `Double.lit 10 1`, `0.05` is `Double.lit 5 100`. -/
def Double.lit (n d : Nat) : Double := Double.round false n d

/-- Conversion `int → double` of a non-negative integer constant. -/
def Double.ofNat (n : Nat) : Double := Double.round false n 1

/-- Unary minus on `double`: flips the sign bit. -/
def Double.neg : Double → Double
  | .finite s m e => .finite (!s) m e
  | .inf s => .inf (!s)
  | .nan => .nan

/-- Multiplication `a * b` on `double`. -/
def Double.mul : Double → Double → Double
  | .nan, _ => .nan
  | _, .nan => .nan
  | .inf s, .inf t => .inf (xor s t)
  | .inf s, .finite t m _ => if m = 0 then .nan else .inf (xor s t)
  | .finite s m _, .inf t => if m = 0 then .nan else .inf (xor s t)
  | .finite s m e, .finite t n f =>
    let x := e + f
    if 0 ≤ x then Double.round (xor s t) (m * n * 2 ^ x.toNat) 1
    else Double.round (xor s t) (m * n) (2 ^ (-x).toNat)

/-- The integer part of the magnitude of a finite `double`. -/
def truncMag (m : Nat) (e : Int) : Nat :=
  if 0 ≤ e then m * 2 ^ e.toNat else m / 2 ^ (-e).toNat

/-- Conversion `double → unsigned integer` with largest value `maxVal`: the value
is truncated toward zero; when the truncated value is not representable the
behaviour is undefined (`none`). -/
def Double.toUnsigned (maxVal : Nat) : Double → Option Nat
  | .finite s m e =>
    let v := truncMag m e
    if s then (if v = 0 then some 0 else none)
    else (if v ≤ maxVal then some v else none)
  | .inf _ => none
  | .nan => none

/-! ## The platform and the driver interface -/

/-- The declarations the source takes from outside the repository: the
constants of the vendor header `NIDAQmx.h`, whose values are parameters, and
the width of `size_t`, between 32 and 64 bits. -/
structure Platform where
  DAQmx_Val_RSE : Int
  DAQmx_Val_Volts : Int
  DAQmx_Val_Rising : Int
  DAQmx_Val_Falling : Int
  DAQmx_Val_Seconds : Int
  DAQmx_Val_FiniteSamps : Int
  DAQmx_Val_Auto : Int
  sizeBits : Nat
  sizeBits_ge : 32 ≤ sizeBits
  sizeBits_le : sizeBits ≤ 64

/-- The largest `size_t`. -/
def Platform.SIZE_MAX (P : Platform) : Nat := 2 ^ P.sizeBits - 1

/-- Conversion of a signed integer to `size_t`: reduction modulo `2^sizeBits`. -/
def Platform.toSizeT (P : Platform) (v : Int) : Nat := (v % (2 : Int) ^ P.sizeBits).toNat

/-- A driver task handle (`TaskHandle`), an opaque value. -/
abbrev TaskHandle := Nat

/-- One call into the driver, with the arguments the source passes.  A pointer
argument that the source passes as `NULL` is `none`; output pointers are not
recorded (what the driver writes through them is in its `Response`). -/
inductive DriverCall where
  | DAQmxGetErrorString (errorCode : int32) (hasBuffer : Bool) (bufferSize : Nat)
  | DAQmxCreateTask (taskName : String)
  | DAQmxClearTask (taskHandle : TaskHandle)
  | DAQmxCreateAIVoltageChan (taskHandle : TaskHandle) (physicalChannel : String)
      (nameToAssignToChannel : Option String) (terminalConfig : Int) (minVal maxVal : Double)
      (units : Int) (customScaleName : Option String)
  | DAQmxGetTaskNumChans (taskHandle : TaskHandle)
  | DAQmxCfgSampClkTiming (taskHandle : TaskHandle) (source : Option String) (rate : Double)
      (activeEdge : Int) (sampleMode : Int) (sampsPerChan : Nat)
  | DAQmxStartTask (taskHandle : TaskHandle)
  | DAQmxStopTask (taskHandle : TaskHandle)
  | DAQmxReadAnalogF64 (taskHandle : TaskHandle) (numSampsPerChan : Int) (timeout : Double)
      (fillMode : Nat) (arraySizeInSamps : Nat)
  | DAQmxSetStartTrigDelayUnits (taskHandle : TaskHandle) (data : Int)
  | DAQmxSetStartTrigDelay (taskHandle : TaskHandle) (data : Double)
  | DAQmxCfgDigEdgeStartTrig (taskHandle : TaskHandle) (triggerSource : String) (triggerEdge : Int)
  deriving DecidableEq

/-- What the driver hands back from one call: the returned status and the
values it writes through the output pointers of that call (the fields that
belong to other calls are ignored). -/
structure Response where
  status : int32
  taskHandle : TaskHandle
  numChans : Nat
  sampsPerChanRead : int32
  readArray : List Double
  errorString : List Char

/-- The driver: any function from the calls issued so far and the current call
to a response. -/
abbrev Driver := List DriverCall → DriverCall → Response

/-- The content of a caller-owned array of capacity `arr.length` after the driver
has written `written` into it, being told that it holds `cap` elements. -/
def writeArray {α : Type} (written : List α) (cap : Nat) (arr : List α) : List α :=
  let w := written.take (min cap arr.length)
  w ++ arr.drop w.length

/-! ## Exceptions -/

/-- The class `DAQException`, derived from `std::runtime_error`. -/
structure DAQException where
  what : String
  m_code : int32
  deriving DecidableEq

/-- The constructor `DAQException::DAQException(errorCode)`. -/
def DAQException.new (errorCode : int32) : DAQException :=
  ⟨"Exception in NI-DAQmx library", errorCode⟩

/-- The member `DAQException::code()`. -/
def DAQException.code (self : DAQException) : Int := self.m_code.val

/-- The member `DAQException::description()`: the string returned and the trace
afterwards.  A `std::string` is a list of characters. -/
def DAQException.description (P : Platform) (d : Driver) (tr : List DriverCall)
    (self : DAQException) : List Char × List DriverCall :=
  let c1 := DriverCall.DAQmxGetErrorString self.m_code false 0
  let neededSize := (d tr c1).status
  let tr := tr ++ [c1]
  if neededSize.val > 0 then
    let buffer := List.replicate (P.toSizeT neededSize.val) (Char.ofNat 0)
    let c2 := DriverCall.DAQmxGetErrorString self.m_code true neededSize.val.toNat
    let buffer := writeArray (d tr c2).errorString neededSize.val.toNat buffer
    (buffer, tr ++ [c2])
  else
    ([], tr)

/-- What a member function can throw: a plain `std::runtime_error` or a
`DAQException`. -/
inductive Thrown where
  | runtime_error (what : String)
  | DAQException (e : DAQException)
  deriving DecidableEq

/-- How a call of a member function ends: it returns a value, it throws, or its
behaviour is undefined. -/
inductive Outcome (α : Type) where
  | ok (value : α)
  | throw (e : Thrown)
  | undefined
  deriving DecidableEq

/-! ## The class `Task` -/

/-- Modelled from the spec: the data members of `Task` are declared in `daqmx.h`,
which is not among the sources.  The spec lists them: the handle, the device
index, the analog-input port index and the configured buffer size in samples
(an allocation size, so a `size_t`). -/
structure Task where
  m_handle : TaskHandle
  m_device_num : Int
  m_ai_port : Int
  m_bufferSize : Nat
  deriving DecidableEq

/-- The result of calling a member function: the outcome, the task object
afterwards and the driver calls issued so far. -/
structure Step (α : Type) where
  outcome : Outcome α
  task : Task
  trace : List DriverCall

/-- The result of `Task::TryRead`: a `Step` and the content of the vector the
caller passed. -/
structure ReadStep extends Step Nat where
  buffer : List Double

/-- What `operator<<` writes for an `int`: the decimal digits, after a minus
sign when the value is negative. -/
def decimal (v : Int) : String :=
  if v < 0 then "-" ++ Nat.repr v.natAbs else Nat.repr v.natAbs

/-- The static member `Task::CreateNamedTask`: the outcome and the trace
afterwards. -/
def Task.CreateNamedTask (d : Driver) (tr : List DriverCall) (name : String) :
    Outcome TaskHandle × List DriverCall :=
  let c := DriverCall.DAQmxCreateTask name
  let r := d tr c
  let retval := r.taskHandle
  let error := r.status
  if error.val < 0 then (.throw (.DAQException (DAQException.new error)), tr ++ [c])
  else (.ok retval, tr ++ [c])

/-- The destructor `Task::~Task`: the outcome and the trace afterwards.  The
status the driver returns is discarded. -/
def Task.destructor (d : Driver) (tr : List DriverCall) (self : Task) :
    Outcome Unit × List DriverCall :=
  let c := DriverCall.DAQmxClearTask self.m_handle
  let _unused := (d tr c).status
  (.ok (), tr ++ [c])

/-- The `switch` of `Task::AddChannel`: the limit for a range code, `none` in
the `default` case. -/
def limVal (range : Int) : Option Double :=
  if range = 0 then some (Double.lit 10 1)
  else if range = 1 then some (Double.lit 5 1)
  else if range = 2 then some (Double.lit 5 10)
  else if range = 3 then some (Double.lit 5 100)
  else none

/-- The member `Task::AddChannel`. -/
def Task.AddChannel (P : Platform) (d : Driver) (tr : List DriverCall) (self : Task)
    (device_num ai_port_measurement range : Int) : Step Unit :=
  let self := { self with m_device_num := device_num, m_ai_port := ai_port_measurement }
  match limVal range with
  | none => ⟨.throw (.runtime_error "SetubChannel\nIncorrect range"), self, tr⟩
  | some limVal =>
    let physicalName := "/Dev" ++ decimal self.m_device_num ++ "/ai" ++ decimal self.m_ai_port
    let c := DriverCall.DAQmxCreateAIVoltageChan self.m_handle physicalName none P.DAQmx_Val_RSE
      limVal.neg limVal P.DAQmx_Val_Volts none
    let error := (d tr c).status
    if error.val < 0 then ⟨.throw (.DAQException (DAQException.new error)), self, tr ++ [c]⟩
    else ⟨.ok (), self, tr ++ [c]⟩

/-- The member `Task::GetChannelCount`. -/
def Task.GetChannelCount (d : Driver) (tr : List DriverCall) (self : Task) : Step Nat :=
  let c := DriverCall.DAQmxGetTaskNumChans self.m_handle
  let r := d tr c
  let chanCount := r.numChans
  let error := r.status
  if error.val < 0 then ⟨.throw (.DAQException (DAQException.new error)), self, tr ++ [c]⟩
  else ⟨.ok chanCount, self, tr ++ [c]⟩

/-- The member `Task::SetupFiniteAcquisition`.  The assignment to `m_bufferSize`
converts a `double` to `size_t`; where that conversion is undefined, so is the
call. -/
def Task.SetupFiniteAcquisition (P : Platform) (d : Driver) (tr : List DriverCall) (self : Task)
    (samplesPerSecond time_ms : Double) : Step Unit :=
  match ((samplesPerSecond.mul (Double.ofNat 1000)).mul time_ms).toUnsigned P.SIZE_MAX with
  | none => ⟨.undefined, self, tr⟩
  | some n =>
    let self := { self with m_bufferSize := n }
    let c := DriverCall.DAQmxCfgSampClkTiming self.m_handle none samplesPerSecond
      P.DAQmx_Val_Rising P.DAQmx_Val_FiniteSamps (self.m_bufferSize % 2 ^ 64)
    let error := (d tr c).status
    if error.val < 0 then ⟨.throw (.DAQException (DAQException.new error)), self, tr ++ [c]⟩
    else ⟨.ok (), self, tr ++ [c]⟩

/-- The member `Task::Start`. -/
def Task.Start (d : Driver) (tr : List DriverCall) (self : Task) : Step Unit :=
  let c := DriverCall.DAQmxStartTask self.m_handle
  let error := (d tr c).status
  if error.val < 0 then ⟨.throw (.DAQException (DAQException.new error)), self, tr ++ [c]⟩
  else ⟨.ok (), self, tr ++ [c]⟩

/-- The member `Task::Stop`. -/
def Task.Stop (d : Driver) (tr : List DriverCall) (self : Task) : Step Unit :=
  let c := DriverCall.DAQmxStopTask self.m_handle
  let error := (d tr c).status
  if error.val < 0 then ⟨.throw (.DAQException (DAQException.new error)), self, tr ++ [c]⟩
  else ⟨.ok (), self, tr ++ [c]⟩

/-- The constant `fTimeout` of `Task::TryRead`, in seconds. -/
def fTimeout : Double := Double.lit 10 1

/-- The scratch array `tmp_buffer` of `Task::TryRead` after the driver call:
`bufferSize` value-initialised elements, overwritten by what the driver wrote. -/
def tmp_buffer (bufferSize : Nat) (r : Response) : List Double :=
  writeArray r.readArray (bufferSize % 2 ^ 32) (List.replicate bufferSize (Double.finite false 0 (-1074)))

/-- The member `Task::TryRead`; `buffer` is the content of the vector passed. -/
def Task.TryRead (P : Platform) (d : Driver) (tr : List DriverCall) (self : Task)
    (buffer : List Double) (fillMode : Nat) : ReadStep :=
  let c := DriverCall.DAQmxReadAnalogF64 self.m_handle P.DAQmx_Val_Auto fTimeout fillMode
    (self.m_bufferSize % 2 ^ 32)
  let r := d tr c
  let samplesRead := r.sampsPerChanRead
  let error := r.status
  if error.val < 0 then ⟨⟨.throw (.DAQException (DAQException.new error)), self, tr ++ [c]⟩, buffer⟩
  else ⟨⟨.ok (P.toSizeT samplesRead.val), self, tr ++ [c]⟩, tmp_buffer self.m_bufferSize r⟩

/-- The member `Task::SetupTrigger`. -/
def Task.SetupTrigger (P : Platform) (d : Driver) (tr : List DriverCall) (self : Task)
    (trigger_port edge : Int) (gateTime : Double) : Step Unit :=
  if edge ≠ P.DAQmx_Val_Falling ∧ edge ≠ P.DAQmx_Val_Rising then
    ⟨.throw (.runtime_error "SetupTriggerEdge\nIncorrect edge"), self, tr⟩
  else
    let c1 := DriverCall.DAQmxSetStartTrigDelayUnits self.m_handle P.DAQmx_Val_Seconds
    let error := (d tr c1).status
    let tr := tr ++ [c1]
    if error.val < 0 then ⟨.throw (.DAQException (DAQException.new error)), self, tr⟩
    else
      let c2 := DriverCall.DAQmxSetStartTrigDelay self.m_handle ((Double.lit 1 1000000).mul gateTime)
      let error := (d tr c2).status
      let tr := tr ++ [c2]
      if error.val < 0 then ⟨.throw (.DAQException (DAQException.new error)), self, tr⟩
      else
        let physicalName := "/Dev" ++ decimal self.m_device_num ++ "/PFI" ++ decimal trigger_port
        let c3 := DriverCall.DAQmxCfgDigEdgeStartTrig self.m_handle physicalName edge
        let error := (d tr c3).status
        let tr := tr ++ [c3]
        if error.val < 0 then ⟨.throw (.DAQException (DAQException.new error)), self, tr⟩
        else ⟨.ok (), self, tr⟩

/-! ## Clients -/

/-- One call of a member function by a client that owns a `Task` object. -/
inductive Op where
  | AddChannel (device_num ai_port_measurement range : Int)
  | GetChannelCount
  | SetupFiniteAcquisition (samplesPerSecond time_ms : Double)
  | Start
  | Stop
  | TryRead (buffer : List Double) (fillMode : Nat)
  | SetupTrigger (trigger_port edge : Int) (gateTime : Double)

/-- The task object and the trace after a client makes one call; a client that
catches an exception goes on with the same object. -/
def Op.run (P : Platform) (d : Driver) (tr : List DriverCall) (self : Task) :
    Op → Task × List DriverCall
  | .AddChannel a b c => ((self.AddChannel P d tr a b c).task, (self.AddChannel P d tr a b c).trace)
  | .GetChannelCount => ((self.GetChannelCount d tr).task, (self.GetChannelCount d tr).trace)
  | .SetupFiniteAcquisition a b =>
    ((self.SetupFiniteAcquisition P d tr a b).task, (self.SetupFiniteAcquisition P d tr a b).trace)
  | .Start => ((self.Start d tr).task, (self.Start d tr).trace)
  | .Stop => ((self.Stop d tr).task, (self.Stop d tr).trace)
  | .TryRead b f => ((self.TryRead P d tr b f).task, (self.TryRead P d tr b f).trace)
  | .SetupTrigger a b c => ((self.SetupTrigger P d tr a b c).task, (self.SetupTrigger P d tr a b c).trace)

/-- The task object and the trace after a client makes a sequence of calls. -/
def runOps (P : Platform) (d : Driver) : List Op → List DriverCall → Task → Task × List DriverCall
  | [], tr, self => (self, tr)
  | op :: ops, tr, self => runOps P d ops (op.run P d tr self).2 (op.run P d tr self).1

/-- Whether a client call is a call of `AddChannel`. -/
def Op.isAddChannel : Op → Bool
  | .AddChannel _ _ _ => true
  | _ => false

/-- Whether a driver call is the release call `DAQmxClearTask`. -/
def DriverCall.isClearTask : DriverCall → Bool
  | .DAQmxClearTask _ => true
  | _ => false

/-! ## Properties -/

/-- Whether an outcome is a normal return. -/
def Outcome.isOk {α : Type} : Outcome α → Bool
  | .ok _ => true
  | _ => false

/-- The error translation of a wrapper around a driver call that returned the
status `c`: the outcome `o` is a thrown `DAQException` exactly when `c` is
negative, the exception then carries `c` as its `code()`, and a status that is
zero or positive gives a normal return. -/
def FailsIffNegative {α : Type} (c : int32) (o : Outcome α) : Prop :=
  ((∃ e : DAQException, o = .throw (.DAQException e)) ↔ c.val < 0) ∧
  (∀ e : DAQException, o = .throw (.DAQException e) → e.code = c.val) ∧
  (0 ≤ c.val → o.isOk = true)

/-- The trace `after` extends the trace `before` by calls none of which is the
release call `DAQmxClearTask`. -/
def ExtendsWithoutRelease (before after : List DriverCall) : Prop :=
  ∃ new : List DriverCall, after = before ++ new ∧ ∀ c ∈ new, c.isClearTask = false

/-! ## Concrete instances, for evaluating the definitions -/

/-- A 64-bit platform with the constant values of the vendor header. -/
def vendor64 : Platform :=
  ⟨10083, 10348, 10280, 10171, 10364, 10178, -1, 64, by decide, by decide⟩

/-- An `int32` from a literal, reduced into range. -/
def int32.ofInt (v : Int) : int32 :=
  ⟨(v + 2147483648) % 4294967296 - 2147483648, by omega⟩

/-- A driver that answers every call with the same status and writes the same
values. -/
def constDriver (status : Int) (samplesRead : Int) (samples : List Double) (text : List Char) :
    Driver :=
  fun _ _ => ⟨int32.ofInt status, 42, 1, int32.ofInt samplesRead, samples, text⟩

/-- A driver that answers the call number `k` (counting from 0) with `status` and
every other call with 0. -/
def failAt (k : Nat) (status : Int) : Driver :=
  fun tr _ => ⟨if tr.length = k then int32.ofInt status else int32.ofInt 0, 42, 1, int32.ofInt 0, [], []⟩

/-- A task object for the examples. -/
def task7 : Task := ⟨7, 0, 0, 3⟩

/-! ## Helper lemmas -/

theorem limVal_eq_none_iff (range : Int) :
    limVal range = none ↔ ¬ (range = 0 ∨ range = 1 ∨ range = 2 ∨ range = 3) := by
  unfold limVal
  by_cases h0 : range = 0
  · simp [h0]
  by_cases h1 : range = 1
  · simp [h1]
  by_cases h2 : range = 2
  · simp [h2]
  by_cases h3 : range = 3
  · simp [h3]
  simp [h0, h1, h2, h3]

theorem failsIffNegative_throw {α : Type} (c : int32) (h : c.val < 0) :
    FailsIffNegative c (Outcome.throw (.DAQException (DAQException.new c)) : Outcome α) := by
  refine ⟨⟨fun _ => h, fun _ => ⟨_, rfl⟩⟩, ?_, fun h0 => absurd h (not_lt.mpr h0)⟩
  intro e he
  cases he
  rfl

theorem failsIffNegative_ok {α : Type} (c : int32) (v : α) (h : ¬ c.val < 0) :
    FailsIffNegative c (Outcome.ok v) := by
  refine ⟨⟨?_, fun h0 => absurd h0 h⟩, ?_, fun _ => rfl⟩
  · rintro ⟨e, he⟩
    cases he
  · intro e he
    cases he

theorem toSizeT_of_nonneg (P : Platform) (k : int32) (h : 0 ≤ k.val) :
    P.toSizeT k.val = k.val.toNat := by
  have hk : k.val ≤ 2147483647 := k.property.2
  have hp : (2 : Int) ^ 32 ≤ (2 : Int) ^ P.sizeBits :=
    pow_le_pow_right₀ (by norm_num) P.sizeBits_ge
  have hlt : k.val < (2 : Int) ^ P.sizeBits := by
    have : (2 : Int) ^ 32 = 4294967296 := by norm_num
    omega
  unfold Platform.toSizeT
  rw [Int.emod_eq_of_lt h hlt]

theorem writeArray_length {α : Type} (written : List α) (cap : Nat) (arr : List α) :
    (writeArray written cap arr).length = arr.length := by
  unfold writeArray
  simp only [List.length_append, List.length_take, List.length_drop]
  omega

theorem toUnsigned_le (maxVal : Nat) (x : Double) (n : Nat)
    (h : x.toUnsigned maxVal = some n) : n ≤ maxVal := by
  cases x with
  | finite s m e =>
    unfold Double.toUnsigned at h
    dsimp only at h
    cases s with
    | true =>
      simp only [if_true] at h
      split at h
      · cases h
        exact Nat.zero_le _
      · cases h
    | false =>
      simp only [Bool.false_eq_true, if_false] at h
      split at h
      · cases h
        assumption
      · cases h
  | inf s => cases h
  | nan => cases h

theorem SIZE_MAX_lt (P : Platform) : P.SIZE_MAX < 2 ^ 64 := by
  have h : 2 ^ P.sizeBits ≤ 2 ^ 64 := Nat.pow_le_pow_right (by norm_num) P.sizeBits_le
  have hpos : 0 < 2 ^ P.sizeBits := Nat.two_pow_pos P.sizeBits
  unfold Platform.SIZE_MAX
  omega

theorem SIZE_MAX_ge (P : Platform) : 4294967295 ≤ P.SIZE_MAX := by
  have h : 2 ^ 32 ≤ 2 ^ P.sizeBits := Nat.pow_le_pow_right (by norm_num) P.sizeBits_ge
  unfold Platform.SIZE_MAX
  omega

set_option maxRecDepth 10000 in
theorem product_1000_1000_5 :
    ((Double.lit 1000 1).mul (Double.ofNat 1000)).mul (Double.lit 5 1) =
      Double.finite false 5368709120000000 (-30) := by
  decide

theorem AddChannel_task (P : Platform) (d : Driver) (tr : List DriverCall) (self : Task)
    (dev port range : Int) :
    (self.AddChannel P d tr dev port range).task =
      { self with m_device_num := dev, m_ai_port := port } := by
  unfold Task.AddChannel
  dsimp only
  split
  · rfl
  · split <;> rfl

theorem SetupTrigger_task (P : Platform) (d : Driver) (tr : List DriverCall) (self : Task)
    (port edge : Int) (gate : Double) :
    (self.SetupTrigger P d tr port edge gate).task = self := by
  unfold Task.SetupTrigger
  dsimp only
  split
  · rfl
  · split
    · rfl
    · split
      · rfl
      · split <;> rfl

theorem SetupFiniteAcquisition_task (P : Platform) (d : Driver) (tr : List DriverCall)
    (self : Task) (a b : Double) :
    (self.SetupFiniteAcquisition P d tr a b).task.m_handle = self.m_handle ∧
    (self.SetupFiniteAcquisition P d tr a b).task.m_device_num = self.m_device_num := by
  unfold Task.SetupFiniteAcquisition
  split
  · exact ⟨rfl, rfl⟩
  · dsimp only
    split <;> exact ⟨rfl, rfl⟩

theorem TryRead_task (P : Platform) (d : Driver) (tr : List DriverCall) (self : Task)
    (buffer : List Double) (fillMode : Nat) :
    (self.TryRead P d tr buffer fillMode).task = self := by
  unfold Task.TryRead
  dsimp only
  split <;> rfl

theorem GetChannelCount_task (d : Driver) (tr : List DriverCall) (self : Task) :
    (self.GetChannelCount d tr).task = self := by
  unfold Task.GetChannelCount
  dsimp only
  split <;> rfl

theorem Start_task (d : Driver) (tr : List DriverCall) (self : Task) :
    (self.Start d tr).task = self := by
  unfold Task.Start
  dsimp only
  split <;> rfl

theorem Stop_task (d : Driver) (tr : List DriverCall) (self : Task) :
    (self.Stop d tr).task = self := by
  unfold Task.Stop
  dsimp only
  split <;> rfl

theorem Op_run_handle (P : Platform) (d : Driver) (tr : List DriverCall) (self : Task) (op : Op) :
    (op.run P d tr self).1.m_handle = self.m_handle := by
  cases op with
  | AddChannel a b c => simp [Op.run, AddChannel_task]
  | GetChannelCount => simp [Op.run, GetChannelCount_task]
  | SetupFiniteAcquisition a b => simp [Op.run, (SetupFiniteAcquisition_task P d tr self a b).1]
  | Start => simp [Op.run, Start_task]
  | Stop => simp [Op.run, Stop_task]
  | TryRead b f => simp [Op.run, TryRead_task]
  | SetupTrigger a b c => simp [Op.run, SetupTrigger_task]

theorem Op_run_device_num (P : Platform) (d : Driver) (tr : List DriverCall) (self : Task)
    (op : Op) (h : op.isAddChannel = false) :
    (op.run P d tr self).1.m_device_num = self.m_device_num := by
  cases op with
  | AddChannel a b c => simp [Op.isAddChannel] at h
  | GetChannelCount => simp [Op.run, GetChannelCount_task]
  | SetupFiniteAcquisition a b => simp [Op.run, (SetupFiniteAcquisition_task P d tr self a b).2]
  | Start => simp [Op.run, Start_task]
  | Stop => simp [Op.run, Stop_task]
  | TryRead b f => simp [Op.run, TryRead_task]
  | SetupTrigger a b c => simp [Op.run, SetupTrigger_task]

theorem runOps_handle (P : Platform) (d : Driver) (ops : List Op) :
    ∀ (tr : List DriverCall) (self : Task), (runOps P d ops tr self).1.m_handle = self.m_handle := by
  induction ops with
  | nil =>
    intro tr self
    rfl
  | cons op ops ih =>
    intro tr self
    unfold runOps
    rw [ih, Op_run_handle]

theorem runOps_device_num (P : Platform) (d : Driver) (ops : List Op) :
    ∀ (tr : List DriverCall) (self : Task), (∀ op ∈ ops, op.isAddChannel = false) →
      (runOps P d ops tr self).1.m_device_num = self.m_device_num := by
  induction ops with
  | nil =>
    intro tr self _
    rfl
  | cons op ops ih =>
    intro tr self h
    unfold runOps
    rw [ih _ _ (fun o ho => h o (List.mem_cons_of_mem _ ho)),
      Op_run_device_num _ _ _ _ _ (h op (List.mem_cons_self _ _))]

theorem extends_refl (tr : List DriverCall) : ExtendsWithoutRelease tr tr :=
  ⟨[], by simp, by simp⟩

theorem extends_snoc (tr : List DriverCall) (c : DriverCall) (h : c.isClearTask = false) :
    ExtendsWithoutRelease tr (tr ++ [c]) :=
  ⟨[c], rfl, by simpa using h⟩

theorem extends_trans {a b c : List DriverCall} (h1 : ExtendsWithoutRelease a b)
    (h2 : ExtendsWithoutRelease b c) : ExtendsWithoutRelease a c := by
  obtain ⟨n1, rfl, hn1⟩ := h1
  obtain ⟨n2, rfl, hn2⟩ := h2
  refine ⟨n1 ++ n2, by simp, ?_⟩
  intro x hx
  rcases List.mem_append.mp hx with h | h
  · exact hn1 x h
  · exact hn2 x h

theorem extends_snoc2 (tr : List DriverCall) (a b : DriverCall) (ha : a.isClearTask = false)
    (hb : b.isClearTask = false) : ExtendsWithoutRelease tr (tr ++ [a] ++ [b]) :=
  extends_trans (extends_snoc tr a ha) (extends_snoc (tr ++ [a]) b hb)

theorem extends_snoc3 (tr : List DriverCall) (a b c : DriverCall) (ha : a.isClearTask = false)
    (hb : b.isClearTask = false) (hc : c.isClearTask = false) :
    ExtendsWithoutRelease tr (tr ++ [a] ++ [b] ++ [c]) :=
  extends_trans (extends_snoc2 tr a b ha hb) (extends_snoc (tr ++ [a] ++ [b]) c hc)

theorem Op_run_trace (P : Platform) (d : Driver) (tr : List DriverCall) (self : Task) (op : Op) :
    ExtendsWithoutRelease tr (op.run P d tr self).2 := by
  cases op with
  | AddChannel a b c =>
    simp only [Op.run]
    unfold Task.AddChannel
    dsimp only
    split
    · exact extends_refl tr
    · split <;> exact extends_snoc _ _ rfl
  | GetChannelCount =>
    simp only [Op.run]
    unfold Task.GetChannelCount
    dsimp only
    split <;> exact extends_snoc _ _ rfl
  | SetupFiniteAcquisition a b =>
    simp only [Op.run]
    unfold Task.SetupFiniteAcquisition
    split
    · exact extends_refl tr
    · dsimp only
      split <;> exact extends_snoc _ _ rfl
  | Start =>
    simp only [Op.run]
    unfold Task.Start
    dsimp only
    split <;> exact extends_snoc _ _ rfl
  | Stop =>
    simp only [Op.run]
    unfold Task.Stop
    dsimp only
    split <;> exact extends_snoc _ _ rfl
  | TryRead b f =>
    simp only [Op.run]
    unfold Task.TryRead
    dsimp only
    split <;> exact extends_snoc _ _ rfl
  | SetupTrigger a b c =>
    simp only [Op.run]
    unfold Task.SetupTrigger
    dsimp only
    split
    · exact extends_refl tr
    · split
      · exact extends_snoc _ _ rfl
      · split
        · exact extends_snoc2 _ _ _ rfl rfl
        · split <;> exact extends_snoc3 _ _ _ _ rfl rfl rfl

theorem runOps_trace (P : Platform) (d : Driver) (ops : List Op) :
    ∀ (tr : List DriverCall) (self : Task), ExtendsWithoutRelease tr (runOps P d ops tr self).2 := by
  induction ops with
  | nil =>
    intro tr self
    exact extends_refl tr
  | cons op ops ih =>
    intro tr self
    unfold runOps
    exact extends_trans (Op_run_trace P d tr self op) (ih _ _)

theorem SetupTrigger_third_call (P : Platform) (d : Driver) (tr : List DriverCall) (self : Task)
    (port edge : Int) (gate : Double)
    (hedge : edge = P.DAQmx_Val_Rising ∨ edge = P.DAQmx_Val_Falling)
    (hs1 : 0 ≤ (d tr (.DAQmxSetStartTrigDelayUnits self.m_handle P.DAQmx_Val_Seconds)).status.val)
    (hs2 : 0 ≤ (d (tr ++ [.DAQmxSetStartTrigDelayUnits self.m_handle P.DAQmx_Val_Seconds])
      (.DAQmxSetStartTrigDelay self.m_handle ((Double.lit 1 1000000).mul gate))).status.val) :
    (self.SetupTrigger P d tr port edge gate).trace =
      tr ++ [.DAQmxSetStartTrigDelayUnits self.m_handle P.DAQmx_Val_Seconds,
        .DAQmxSetStartTrigDelay self.m_handle ((Double.lit 1 1000000).mul gate),
        .DAQmxCfgDigEdgeStartTrig self.m_handle
          ("/Dev" ++ decimal self.m_device_num ++ "/PFI" ++ decimal port) edge] := by
  have hv : ¬ (edge ≠ P.DAQmx_Val_Falling ∧ edge ≠ P.DAQmx_Val_Rising) := by
    rcases hedge with h | h <;> simp [h]
  unfold Task.SetupTrigger
  rw [if_neg hv]
  dsimp only
  rw [if_neg (not_lt.mpr hs1), if_neg (not_lt.mpr hs2)]
  split <;> simp

theorem take_succ_append_cons (tr : List DriverCall) (c : DriverCall) (rest : List DriverCall) :
    (tr ++ c :: rest).take (tr.length + 1) = tr ++ [c] := by
  induction tr with
  | nil => simp
  | cons a tr ih => simpa using ih

/-! ## C1: range validation of `AddChannel` -/

/-- C1: for every range code, `Task::AddChannel` issues exactly one driver call,
`DAQmxCreateAIVoltageChan` with the limits `-L` and `+L`, where `L` is 10.0, 5.0,
0.5, 0.05 for the codes 0, 1, 2, 3; for every other code it throws the plain
`runtime_error` and issues no driver call.  A plain `runtime_error` is thrown
exactly when the code is not one of 0, 1, 2, 3. -/
theorem AddChannel_range_validation (P : Platform) (d : Driver) (tr : List DriverCall)
    (self : Task) (device_num ai_port range : Int) :
    (∀ L : Double,
      (range = 0 ∧ L = Double.lit 10 1) ∨ (range = 1 ∧ L = Double.lit 5 1) ∨
        (range = 2 ∧ L = Double.lit 5 10) ∨ (range = 3 ∧ L = Double.lit 5 100) →
      (self.AddChannel P d tr device_num ai_port range).trace =
        tr ++ [DriverCall.DAQmxCreateAIVoltageChan self.m_handle
          ("/Dev" ++ decimal device_num ++ "/ai" ++ decimal ai_port) none P.DAQmx_Val_RSE
          L.neg L P.DAQmx_Val_Volts none] ∧
      ∀ w, (self.AddChannel P d tr device_num ai_port range).outcome ≠ .throw (.runtime_error w)) ∧
    (¬ (range = 0 ∨ range = 1 ∨ range = 2 ∨ range = 3) →
      (self.AddChannel P d tr device_num ai_port range).outcome =
        .throw (.runtime_error "SetubChannel\nIncorrect range") ∧
      (self.AddChannel P d tr device_num ai_port range).trace = tr) := by
  constructor
  · intro L hL
    have hv : limVal range = some L := by
      rcases hL with ⟨h, rfl⟩ | ⟨h, rfl⟩ | ⟨h, rfl⟩ | ⟨h, rfl⟩ <;> subst h <;> rfl
    unfold Task.AddChannel
    simp only [hv]
    constructor
    · split <;> rfl
    · intro w
      split <;> simp
  · intro h
    have hv : limVal range = none := (limVal_eq_none_iff range).2 h
    simp [Task.AddChannel, hv]

/-- C1, evaluated: with range code 3 the limits passed are -0.05 and +0.05, and
with range code 4 nothing is passed. -/
theorem AddChannel_range_validation_witness :
    (task7.AddChannel vendor64 (constDriver 0 0 [] []) [] 1 2 3).trace =
        [DriverCall.DAQmxCreateAIVoltageChan 7 "/Dev1/ai2" none 10083
          (Double.finite true 7205759403792794 (-57)) (Double.finite false 7205759403792794 (-57))
          10348 none] ∧
      (task7.AddChannel vendor64 (constDriver 0 0 [] []) [] 1 2 4).outcome =
        .throw (.runtime_error "SetubChannel\nIncorrect range") ∧
      (task7.AddChannel vendor64 (constDriver 0 0 [] []) [] 1 2 4).trace = [] :=
  ⟨(((AddChannel_range_validation vendor64 (constDriver 0 0 [] []) [] task7 1 2 3).1
      (Double.lit 5 100) (by decide)).1).trans (by decide),
    (AddChannel_range_validation vendor64 (constDriver 0 0 [] []) [] task7 1 2 4).2 (by decide)⟩

/-! ## C2: edge validation of `SetupTrigger` -/

/-- C2: for every edge value other than `DAQmx_Val_Rising` and `DAQmx_Val_Falling`,
every trigger port and every gate time, `Task::SetupTrigger` throws the plain
`runtime_error` (not a `DAQException`) and issues no driver call; for an edge
equal to one of the two the validation passes (no plain `runtime_error` is
thrown) and the first driver call, `DAQmxSetStartTrigDelayUnits`, is issued: it
is the first call the trace gains. -/
theorem SetupTrigger_edge_validation (P : Platform) (d : Driver) (tr : List DriverCall)
    (self : Task) (trigger_port edge : Int) (gateTime : Double) :
    (edge ≠ P.DAQmx_Val_Rising ∧ edge ≠ P.DAQmx_Val_Falling →
      (self.SetupTrigger P d tr trigger_port edge gateTime).outcome =
        .throw (.runtime_error "SetupTriggerEdge\nIncorrect edge") ∧
      (self.SetupTrigger P d tr trigger_port edge gateTime).trace = tr) ∧
    (edge = P.DAQmx_Val_Rising ∨ edge = P.DAQmx_Val_Falling →
      (∀ w, (self.SetupTrigger P d tr trigger_port edge gateTime).outcome ≠
        .throw (.runtime_error w)) ∧
      (self.SetupTrigger P d tr trigger_port edge gateTime).trace.take (tr.length + 1) =
        tr ++ [.DAQmxSetStartTrigDelayUnits self.m_handle P.DAQmx_Val_Seconds]) := by
  constructor
  · rintro ⟨hR, hF⟩
    simp [Task.SetupTrigger, hR, hF]
  · intro h
    have hv : ¬ (edge ≠ P.DAQmx_Val_Falling ∧ edge ≠ P.DAQmx_Val_Rising) := by
      rcases h with h | h <;> simp [h]
    constructor
    · intro w
      unfold Task.SetupTrigger
      rw [if_neg hv]
      dsimp only
      split
      · simp
      · split
        · simp
        · split <;> simp
    · have hex : ∃ rest, (self.SetupTrigger P d tr trigger_port edge gateTime).trace =
          tr ++ DriverCall.DAQmxSetStartTrigDelayUnits self.m_handle P.DAQmx_Val_Seconds :: rest := by
        unfold Task.SetupTrigger
        rw [if_neg hv]
        dsimp only
        split
        · exact ⟨[], rfl⟩
        · split
          · simp only [List.append_assoc, List.singleton_append]
            exact ⟨_, rfl⟩
          · split <;> simp only [List.append_assoc, List.singleton_append] <;> exact ⟨_, rfl⟩
      obtain ⟨rest, hrest⟩ := hex
      rw [hrest, take_succ_append_cons]

/-- C2, evaluated: edge 0 is refused without a driver call, and the rising edge
10280 gets the first driver call issued. -/
theorem SetupTrigger_edge_validation_witness :
    ((task7.SetupTrigger vendor64 (constDriver 0 0 [] []) [] 2 0 (Double.lit 5 1)).outcome =
        .throw (.runtime_error "SetupTriggerEdge\nIncorrect edge") ∧
      (task7.SetupTrigger vendor64 (constDriver 0 0 [] []) [] 2 0 (Double.lit 5 1)).trace = []) ∧
    (task7.SetupTrigger vendor64 (constDriver 0 0 [] []) [] 2 10280 (Double.lit 5 1)).trace.take 1 =
      [DriverCall.DAQmxSetStartTrigDelayUnits 7 10364] :=
  ⟨(SetupTrigger_edge_validation vendor64 (constDriver 0 0 [] []) [] task7 2 0 (Double.lit 5 1)).1
      (by decide),
    ((SetupTrigger_edge_validation vendor64 (constDriver 0 0 [] []) [] task7 2 10280
      (Double.lit 5 1)).2 (by decide)).2⟩

/-! ## C3: a negative status becomes a `DAQException` -/

/-- C3: every wrapper turns the status `c` of its driver call into a thrown
`DAQException` if and only if `c < 0`, the exception then has `code() = c`, and a
zero or positive status is a normal return.  This holds for `CreateNamedTask`,
`AddChannel` with a valid range, `GetChannelCount`, `SetupFiniteAcquisition`,
`Start`, `Stop` and `TryRead`; in `SetupTrigger` with a valid edge it holds for
each of the three driver calls in turn: a negative status of a call that is
reached is thrown as a `DAQException` with that code, and a `DAQException`
comes from no other source. -/
theorem driver_error_iff_negative_status (P : Platform) (d : Driver) (tr : List DriverCall)
    (self : Task) :
    (∀ name, FailsIffNegative (d tr (.DAQmxCreateTask name)).status
      (Task.CreateNamedTask d tr name).1) ∧
    (∀ dev port range L, limVal range = some L →
      FailsIffNegative (d tr (.DAQmxCreateAIVoltageChan self.m_handle
          ("/Dev" ++ decimal dev ++ "/ai" ++ decimal port) none P.DAQmx_Val_RSE L.neg L
          P.DAQmx_Val_Volts none)).status
        (self.AddChannel P d tr dev port range).outcome) ∧
    FailsIffNegative (d tr (.DAQmxGetTaskNumChans self.m_handle)).status
      (self.GetChannelCount d tr).outcome ∧
    (∀ rate time n, ((rate.mul (Double.ofNat 1000)).mul time).toUnsigned P.SIZE_MAX = some n →
      FailsIffNegative (d tr (.DAQmxCfgSampClkTiming self.m_handle none rate P.DAQmx_Val_Rising
          P.DAQmx_Val_FiniteSamps (n % 2 ^ 64))).status
        (self.SetupFiniteAcquisition P d tr rate time).outcome) ∧
    FailsIffNegative (d tr (.DAQmxStartTask self.m_handle)).status (self.Start d tr).outcome ∧
    FailsIffNegative (d tr (.DAQmxStopTask self.m_handle)).status (self.Stop d tr).outcome ∧
    (∀ buffer fillMode,
      FailsIffNegative (d tr (.DAQmxReadAnalogF64 self.m_handle P.DAQmx_Val_Auto fTimeout fillMode
          (self.m_bufferSize % 2 ^ 32))).status
        (self.TryRead P d tr buffer fillMode).outcome) ∧
    (∀ port edge gate, edge = P.DAQmx_Val_Rising ∨ edge = P.DAQmx_Val_Falling →
      ∀ c1 c2 c3 : DriverCall, ∀ s1 s2 s3 : int32,
      c1 = .DAQmxSetStartTrigDelayUnits self.m_handle P.DAQmx_Val_Seconds →
      c2 = .DAQmxSetStartTrigDelay self.m_handle ((Double.lit 1 1000000).mul gate) →
      c3 = .DAQmxCfgDigEdgeStartTrig self.m_handle
        ("/Dev" ++ decimal self.m_device_num ++ "/PFI" ++ decimal port) edge →
      s1 = (d tr c1).status → s2 = (d (tr ++ [c1]) c2).status →
      s3 = (d (tr ++ [c1] ++ [c2]) c3).status →
      (s1.val < 0 → FailsIffNegative s1 (self.SetupTrigger P d tr port edge gate).outcome) ∧
      (0 ≤ s1.val → s2.val < 0 →
        FailsIffNegative s2 (self.SetupTrigger P d tr port edge gate).outcome) ∧
      (0 ≤ s1.val → 0 ≤ s2.val →
        FailsIffNegative s3 (self.SetupTrigger P d tr port edge gate).outcome)) := by
  refine ⟨?_, ?_, ?_, ?_, ?_, ?_, ?_, ?_⟩
  · intro name
    unfold Task.CreateNamedTask
    dsimp only
    split
    · exact failsIffNegative_throw _ (by assumption)
    · exact failsIffNegative_ok _ _ (by assumption)
  · intro dev port range L hL
    unfold Task.AddChannel
    simp only [hL]
    split
    · exact failsIffNegative_throw _ (by assumption)
    · exact failsIffNegative_ok _ _ (by assumption)
  · unfold Task.GetChannelCount
    dsimp only
    split
    · exact failsIffNegative_throw _ (by assumption)
    · exact failsIffNegative_ok _ _ (by assumption)
  · intro rate time n hn
    unfold Task.SetupFiniteAcquisition
    simp only [hn]
    split
    · exact failsIffNegative_throw _ (by assumption)
    · exact failsIffNegative_ok _ _ (by assumption)
  · unfold Task.Start
    dsimp only
    split
    · exact failsIffNegative_throw _ (by assumption)
    · exact failsIffNegative_ok _ _ (by assumption)
  · unfold Task.Stop
    dsimp only
    split
    · exact failsIffNegative_throw _ (by assumption)
    · exact failsIffNegative_ok _ _ (by assumption)
  · intro buffer fillMode
    unfold Task.TryRead
    dsimp only
    split
    · exact failsIffNegative_throw _ (by assumption)
    · exact failsIffNegative_ok _ _ (by assumption)
  · intro port edge gate hedge c1 c2 c3 s1 s2 s3 h1 h2 h3 e1 e2 e3
    subst h1 h2 h3 e1 e2 e3
    have hv : ¬ (edge ≠ P.DAQmx_Val_Falling ∧ edge ≠ P.DAQmx_Val_Rising) := by
      rcases hedge with h | h <;> simp [h]
    unfold Task.SetupTrigger
    rw [if_neg hv]
    dsimp only
    refine ⟨?_, ?_, ?_⟩
    · intro h1
      rw [if_pos h1]
      exact failsIffNegative_throw _ h1
    · intro h1 h2
      rw [if_neg (not_lt.mpr h1), if_pos h2]
      exact failsIffNegative_throw _ h2
    · intro h1 h2
      rw [if_neg (not_lt.mpr h1), if_neg (not_lt.mpr h2)]
      split
      · exact failsIffNegative_throw _ (by assumption)
      · exact failsIffNegative_ok _ _ (by assumption)

/-- C3, evaluated: a driver answering -50103 makes `Start` throw a `DAQException`
whose `code()` is -50103; a driver answering the warning 7 lets `AddChannel`
return normally; a `SetupTrigger` whose second call is answered -200077 throws a
`DAQException` whose `code()` is -200077. -/
theorem driver_error_iff_negative_status_witness :
    (task7.Start (constDriver (-50103) 0 [] []) []).outcome =
      .throw (.DAQException (DAQException.new (int32.ofInt (-50103)))) ∧
    (DAQException.new (int32.ofInt (-50103))).code = -50103 ∧
    (task7.AddChannel vendor64 (constDriver 7 0 [] []) [] 1 2 3).outcome.isOk = true ∧
    (task7.SetupTrigger vendor64 (failAt 1 (-200077)) [] 2 10280 (Double.lit 5 1)).outcome =
      .throw (.DAQException (DAQException.new (int32.ofInt (-200077)))) ∧
    (DAQException.new (int32.ofInt (-200077))).code = -200077 :=
  ⟨by decide,
    ((driver_error_iff_negative_status vendor64 (constDriver (-50103) 0 [] []) [] task7).2.2.2.2.1).2.1
      (DAQException.new (int32.ofInt (-50103))) (by decide),
    ((driver_error_iff_negative_status vendor64 (constDriver 7 0 [] []) [] task7).2.1 1 2 3
      (Double.lit 5 100) (by decide)).2.2 (by decide),
    by decide,
    (((driver_error_iff_negative_status vendor64 (failAt 1 (-200077)) [] task7).2.2.2.2.2.2.2 2 10280
      (Double.lit 5 1) (by decide) _ _ _ _ _ _ rfl rfl rfl rfl rfl rfl).2.1
        (by decide) (by decide)).2.1 (DAQException.new (int32.ofInt (-200077))) (by decide)⟩

/-! ## C6: the order of the driver calls of `SetupTrigger` -/

/-- C6: for a valid edge, `Task::SetupTrigger` issues (1) `DAQmxSetStartTrigDelayUnits`
with `DAQmx_Val_Seconds`, (2) `DAQmxSetStartTrigDelay`, (3) `DAQmxCfgDigEdgeStartTrig`
with the requested edge, in this order, and stops at the first negative status:
when call `i` is the first to fail, the outcome is a `DAQException` with the
status of call `i`, the trace has gained exactly the calls `1..i` (the earlier
ones are not undone, no later one is issued); when none fails the three calls
are issued once each and the call returns normally. -/
theorem SetupTrigger_call_order (P : Platform) (d : Driver) (tr : List DriverCall) (self : Task)
    (port edge : Int) (gate : Double) (c1 c2 c3 : DriverCall) (s1 s2 s3 : int32)
    (hedge : edge = P.DAQmx_Val_Rising ∨ edge = P.DAQmx_Val_Falling)
    (h1 : c1 = .DAQmxSetStartTrigDelayUnits self.m_handle P.DAQmx_Val_Seconds)
    (h2 : c2 = .DAQmxSetStartTrigDelay self.m_handle ((Double.lit 1 1000000).mul gate))
    (h3 : c3 = .DAQmxCfgDigEdgeStartTrig self.m_handle
      ("/Dev" ++ decimal self.m_device_num ++ "/PFI" ++ decimal port) edge)
    (e1 : s1 = (d tr c1).status) (e2 : s2 = (d (tr ++ [c1]) c2).status)
    (e3 : s3 = (d (tr ++ [c1, c2]) c3).status) :
    (s1.val < 0 →
      (self.SetupTrigger P d tr port edge gate).outcome =
        .throw (.DAQException (DAQException.new s1)) ∧
      (self.SetupTrigger P d tr port edge gate).trace = tr ++ [c1]) ∧
    (0 ≤ s1.val → s2.val < 0 →
      (self.SetupTrigger P d tr port edge gate).outcome =
        .throw (.DAQException (DAQException.new s2)) ∧
      (self.SetupTrigger P d tr port edge gate).trace = tr ++ [c1, c2]) ∧
    (0 ≤ s1.val → 0 ≤ s2.val → s3.val < 0 →
      (self.SetupTrigger P d tr port edge gate).outcome =
        .throw (.DAQException (DAQException.new s3)) ∧
      (self.SetupTrigger P d tr port edge gate).trace = tr ++ [c1, c2, c3]) ∧
    (0 ≤ s1.val → 0 ≤ s2.val → 0 ≤ s3.val →
      (self.SetupTrigger P d tr port edge gate).outcome = .ok () ∧
      (self.SetupTrigger P d tr port edge gate).trace = tr ++ [c1, c2, c3]) ∧
    (self.SetupTrigger P d tr port edge gate).task = self := by
  subst h1 h2 h3 e1
  have hv : ¬ (edge ≠ P.DAQmx_Val_Falling ∧ edge ≠ P.DAQmx_Val_Rising) := by
    rcases hedge with h | h <;> simp [h]
  have happ : ∀ a b : DriverCall, tr ++ [a] ++ [b] = tr ++ [a, b] := by
    intro a b
    simp
  have happ3 : ∀ a b c : DriverCall, tr ++ [a] ++ [b] ++ [c] = tr ++ [a, b, c] := by
    intro a b c
    simp
  unfold Task.SetupTrigger
  rw [if_neg hv]
  dsimp only
  simp only [happ, happ3]
  rw [← e2, ← e3]
  refine ⟨?_, ?_, ?_, ?_, ?_⟩
  · intro g1
    rw [if_pos g1]
    exact ⟨rfl, rfl⟩
  · intro g1 g2
    rw [if_neg (not_lt.mpr g1), if_pos g2]
    exact ⟨rfl, rfl⟩
  · intro g1 g2 g3
    rw [if_neg (not_lt.mpr g1), if_neg (not_lt.mpr g2), if_pos g3]
    exact ⟨rfl, by simp⟩
  · intro g1 g2 g3
    rw [if_neg (not_lt.mpr g1), if_neg (not_lt.mpr g2), if_neg (not_lt.mpr g3)]
    exact ⟨rfl, by simp⟩
  · split
    · rfl
    · split
      · rfl
      · split <;> rfl

/-- C6, evaluated: when the second call is answered -200077, `SetupTrigger` throws
the `DAQException` with that code after the calls 1 and 2, and call 3 is not
issued. -/
theorem SetupTrigger_call_order_witness :
    (task7.SetupTrigger vendor64 (failAt 1 (-200077)) [] 2 10171 (Double.lit 5 1)).outcome =
      .throw (.DAQException (DAQException.new (int32.ofInt (-200077)))) ∧
    (task7.SetupTrigger vendor64 (failAt 1 (-200077)) [] 2 10171 (Double.lit 5 1)).trace =
      [] ++ [DriverCall.DAQmxSetStartTrigDelayUnits 7 10364,
        DriverCall.DAQmxSetStartTrigDelay 7 ((Double.lit 1 1000000).mul (Double.lit 5 1))] :=
  (SetupTrigger_call_order vendor64 (failAt 1 (-200077)) [] task7 2 10171 (Double.lit 5 1)
    (.DAQmxSetStartTrigDelayUnits 7 10364)
    (.DAQmxSetStartTrigDelay 7 ((Double.lit 1 1000000).mul (Double.lit 5 1)))
    (.DAQmxCfgDigEdgeStartTrig 7 "/Dev0/PFI2" 10171)
    (int32.ofInt 0) (int32.ofInt (-200077)) (int32.ofInt 0)
    (by decide) rfl rfl (by decide) (by decide) (by decide) (by decide)).2.1
    (by decide) (by decide)

/-! ## C7: `DAQException::description` -/

/-- C7: for every error code and every driver, with `s` the size the lookup
reports when queried with a null buffer of length 0: `description()` returns a
non-empty string if and only if `s > 0`; when `s > 0` the string has length
exactly `s` and the lookup is called a second time, with a buffer of size `s`;
when `s ≤ 0` the string is empty and the lookup is not called again. -/
theorem description_nonempty_iff (P : Platform) (d : Driver) (tr : List DriverCall)
    (self : DAQException) (s : int32)
    (hs : s = (d tr (.DAQmxGetErrorString self.m_code false 0)).status) :
    ((self.description P d tr).1 ≠ [] ↔ 0 < s.val) ∧
    (0 < s.val →
      ((self.description P d tr).1.length : Int) = s.val ∧
      (self.description P d tr).2 =
        tr ++ [.DAQmxGetErrorString self.m_code false 0,
          .DAQmxGetErrorString self.m_code true s.val.toNat]) ∧
    (s.val ≤ 0 →
      (self.description P d tr).1 = [] ∧
      (self.description P d tr).2 = tr ++ [.DAQmxGetErrorString self.m_code false 0]) := by
  have hpos : 0 < s.val →
      ((self.description P d tr).1.length : Int) = s.val ∧
      (self.description P d tr).2 =
        tr ++ [.DAQmxGetErrorString self.m_code false 0,
          .DAQmxGetErrorString self.m_code true s.val.toNat] := by
    intro h
    unfold DAQException.description
    dsimp only
    rw [← hs, if_pos (show s.val > 0 from h)]
    refine ⟨?_, by simp⟩
    rw [writeArray_length, List.length_replicate, toSizeT_of_nonneg P s (le_of_lt h)]
    exact Int.toNat_of_nonneg (le_of_lt h)
  have hneg : s.val ≤ 0 →
      (self.description P d tr).1 = [] ∧
      (self.description P d tr).2 = tr ++ [.DAQmxGetErrorString self.m_code false 0] := by
    intro h
    unfold DAQException.description
    dsimp only
    rw [← hs, if_neg (show ¬ s.val > 0 from not_lt.mpr h)]
    exact ⟨rfl, rfl⟩
  refine ⟨⟨?_, ?_⟩, hpos, hneg⟩
  · intro hne
    by_contra hle
    exact hne (hneg (not_lt.mp hle)).1
  · intro h hnil
    have hlen := (hpos h).1
    rw [hnil] at hlen
    simp at hlen
    omega

/-- C7, evaluated: a lookup that reports the size 4 and writes "bad" gives the
4-character string "bad" followed by NUL, after two lookup calls; a lookup that
reports 0 gives the empty string. -/
theorem description_nonempty_iff_witness :
    ((DAQException.new (int32.ofInt (-5))).description vendor64
        (constDriver 4 0 [] [(Char.ofNat 98), (Char.ofNat 97), (Char.ofNat 100)]) []).1 =
      [(Char.ofNat 98), (Char.ofNat 97), (Char.ofNat 100), Char.ofNat 0] ∧
    ((DAQException.new (int32.ofInt (-5))).description vendor64
        (constDriver 4 0 [] [(Char.ofNat 98), (Char.ofNat 97), (Char.ofNat 100)]) []).2 =
      [] ++ [.DAQmxGetErrorString (int32.ofInt (-5)) false 0,
        .DAQmxGetErrorString (int32.ofInt (-5)) true 4] ∧
    ((DAQException.new (int32.ofInt (-5))).description vendor64 (constDriver 0 0 [] []) []).1 = [] :=
  ⟨by decide,
    ((description_nonempty_iff vendor64
      (constDriver 4 0 [] [(Char.ofNat 98), (Char.ofNat 97), (Char.ofNat 100)]) []
      (DAQException.new (int32.ofInt (-5))) (int32.ofInt 4) (by decide)).2.1 (by decide)).2,
    ((description_nonempty_iff vendor64 (constDriver 0 0 [] []) []
      (DAQException.new (int32.ofInt (-5))) (int32.ofInt 0) (by decide)).2.2 (by decide)).1⟩

/-! ## C4: `TryRead` copies the whole scratch buffer -/

/-- C4: for every task with configured buffer size `n`, every prior content of
the output vector and every driver, a `Task::TryRead` whose driver read returns
a status that is not negative leaves the output vector equal to the scratch
buffer handed to the driver, which has exactly `n` elements whatever the driver
wrote and whatever samples-read count `k` it reported (prior contents are
replaced, the length is `n` and not `k`), and returns the reported count
converted to `size_t`, which is `k` itself for every count `k ≥ 0`. -/
theorem TryRead_copies_bufferSize (P : Platform) (d : Driver) (tr : List DriverCall)
    (self : Task) (buffer : List Double) (fillMode : Nat) (r : Response)
    (hr : r = d tr (.DAQmxReadAnalogF64 self.m_handle P.DAQmx_Val_Auto fTimeout fillMode
      (self.m_bufferSize % 2 ^ 32)))
    (hstatus : 0 ≤ r.status.val) :
    (self.TryRead P d tr buffer fillMode).buffer = tmp_buffer self.m_bufferSize r ∧
    (self.TryRead P d tr buffer fillMode).buffer.length = self.m_bufferSize ∧
    (self.TryRead P d tr buffer fillMode).outcome = .ok (P.toSizeT r.sampsPerChanRead.val) ∧
    (0 ≤ r.sampsPerChanRead.val →
      (self.TryRead P d tr buffer fillMode).outcome = .ok r.sampsPerChanRead.val.toNat) := by
  have hb : (self.TryRead P d tr buffer fillMode).buffer = tmp_buffer self.m_bufferSize r := by
    unfold Task.TryRead
    dsimp only
    rw [← hr, if_neg (not_lt.mpr hstatus)]
  have ho : (self.TryRead P d tr buffer fillMode).outcome =
      .ok (P.toSizeT r.sampsPerChanRead.val) := by
    unfold Task.TryRead
    dsimp only
    rw [← hr, if_neg (not_lt.mpr hstatus)]
  refine ⟨hb, ?_, ho, ?_⟩
  · rw [hb]
    unfold tmp_buffer
    rw [writeArray_length, List.length_replicate]
  · intro hk
    rw [ho, toSizeT_of_nonneg P _ hk]

/-- C4, evaluated: with buffer size 3, a driver that writes one sample and reports
1 sample read, and an output vector that held 5 elements, the output vector ends
with 3 elements (the sample and two zeros) and 1 is returned. -/
theorem TryRead_copies_bufferSize_witness :
    (task7.TryRead vendor64 (constDriver 0 1 [Double.lit 5 10] []) []
        [Double.nan, Double.nan, Double.nan, Double.nan, Double.nan] 0).buffer =
      [Double.lit 5 10, Double.finite false 0 (-1074), Double.finite false 0 (-1074)] ∧
    (task7.TryRead vendor64 (constDriver 0 1 [Double.lit 5 10] []) []
        [Double.nan, Double.nan, Double.nan, Double.nan, Double.nan] 0).buffer.length = 3 ∧
    (task7.TryRead vendor64 (constDriver 0 1 [Double.lit 5 10] []) []
        [Double.nan, Double.nan, Double.nan, Double.nan, Double.nan] 0).outcome = .ok 1 :=
  ⟨((TryRead_copies_bufferSize vendor64 (constDriver 0 1 [Double.lit 5 10] []) [] task7
      [Double.nan, Double.nan, Double.nan, Double.nan, Double.nan] 0
      (constDriver 0 1 [Double.lit 5 10] [] [] (.DAQmxStartTask 0)) rfl (by decide)).1).trans
      (by decide),
    (TryRead_copies_bufferSize vendor64 (constDriver 0 1 [Double.lit 5 10] []) [] task7
      [Double.nan, Double.nan, Double.nan, Double.nan, Double.nan] 0
      (constDriver 0 1 [Double.lit 5 10] [] [] (.DAQmxStartTask 0)) rfl (by decide)).2.1,
    (TryRead_copies_bufferSize vendor64 (constDriver 0 1 [Double.lit 5 10] []) [] task7
      [Double.nan, Double.nan, Double.nan, Double.nan, Double.nan] 0
      (constDriver 0 1 [Double.lit 5 10] [] [] (.DAQmxStartTask 0)) rfl (by decide)).2.2.2
      (by decide)⟩

/-! ## C5: the buffer size of `SetupFiniteAcquisition` -/

/-- C5: `Task::SetupFiniteAcquisition(sampleRate, durationMs)` stores as buffer
size the `double` product `sampleRate * 1000 * durationMs` converted to `size_t`
(`n`, where the conversion is defined) and issues one driver call,
`DAQmxCfgSampClkTiming`, with the unmodified `sampleRate`, `DAQmx_Val_Rising`,
`DAQmx_Val_FiniteSamps` and that same `n` as the sample count; the buffer size is
stored whatever the driver answers.  For `sampleRate = 1000.0` and
`durationMs = 5.0` the stored buffer size is exactly 5000000. -/
theorem SetupFiniteAcquisition_bufferSize (P : Platform) (d : Driver) (tr : List DriverCall)
    (self : Task) (samplesPerSecond time_ms : Double) (n : Nat) :
    (((samplesPerSecond.mul (Double.ofNat 1000)).mul time_ms).toUnsigned P.SIZE_MAX = some n →
      (self.SetupFiniteAcquisition P d tr samplesPerSecond time_ms).task.m_bufferSize = n ∧
      (self.SetupFiniteAcquisition P d tr samplesPerSecond time_ms).trace =
        tr ++ [.DAQmxCfgSampClkTiming self.m_handle none samplesPerSecond P.DAQmx_Val_Rising
          P.DAQmx_Val_FiniteSamps n]) ∧
    (self.SetupFiniteAcquisition P d tr (Double.lit 1000 1) (Double.lit 5 1)).task.m_bufferSize =
      5000000 := by
  have gen : ∀ (a b : Double) (k : Nat),
      ((a.mul (Double.ofNat 1000)).mul b).toUnsigned P.SIZE_MAX = some k →
      (self.SetupFiniteAcquisition P d tr a b).task.m_bufferSize = k ∧
      (self.SetupFiniteAcquisition P d tr a b).trace =
        tr ++ [.DAQmxCfgSampClkTiming self.m_handle none a P.DAQmx_Val_Rising
          P.DAQmx_Val_FiniteSamps k] := by
    intro a b k hk
    have hlt : k < 2 ^ 64 := lt_of_le_of_lt (toUnsigned_le _ _ _ hk) (SIZE_MAX_lt P)
    unfold Task.SetupFiniteAcquisition
    simp only [hk, Nat.mod_eq_of_lt hlt]
    constructor
    · split <;> rfl
    · split <;> rfl
  refine ⟨gen samplesPerSecond time_ms n, (gen _ _ 5000000 ?_).1⟩
  rw [product_1000_1000_5]
  have hmax := SIZE_MAX_ge P
  have htr : truncMag 5368709120000000 (-30) = 5000000 := by decide
  unfold Double.toUnsigned
  simp only [htr, Bool.false_eq_true, if_false]
  rw [if_pos (by omega)]

set_option maxRecDepth 10000 in
/-- C5, evaluated: for 1000.0 samples per second and 5.0 ms the conversion is
defined, 5000000 is stored and passed to the driver. -/
theorem SetupFiniteAcquisition_bufferSize_witness :
    (task7.SetupFiniteAcquisition vendor64 (constDriver 0 0 [] []) [] (Double.lit 1000 1)
        (Double.lit 5 1)).task.m_bufferSize = 5000000 ∧
    (task7.SetupFiniteAcquisition vendor64 (constDriver 0 0 [] []) [] (Double.lit 1000 1)
        (Double.lit 5 1)).trace =
      [] ++ [.DAQmxCfgSampClkTiming 7 none (Double.lit 1000 1) 10280 10178 5000000] :=
  (SetupFiniteAcquisition_bufferSize vendor64 (constDriver 0 0 [] []) [] task7 (Double.lit 1000 1)
    (Double.lit 5 1) 5000000).1 (by decide)

/-! ## C9: the destructor -/

/-- C9: destroying a `Task` issues exactly one driver call, `DAQmxClearTask` on the
handle the task was created with, and does not fail, for every driver (whatever
status the release call returns) and after every sequence of member calls, the
empty one included; none of the member calls issues a release call, so the
handle is released exactly once. -/
theorem destructor_releases_once (P : Platform) (d : Driver) (tr : List DriverCall) (self : Task)
    (ops : List Op) :
    ((runOps P d ops tr self).1.destructor d (runOps P d ops tr self).2).1 = .ok () ∧
    ((runOps P d ops tr self).1.destructor d (runOps P d ops tr self).2).2 =
      (runOps P d ops tr self).2 ++ [.DAQmxClearTask self.m_handle] ∧
    ExtendsWithoutRelease tr (runOps P d ops tr self).2 ∧
    (self.destructor d tr).1 = .ok () ∧
    (self.destructor d tr).2 = tr ++ [.DAQmxClearTask self.m_handle] := by
  refine ⟨rfl, ?_, runOps_trace P d ops tr self, rfl, rfl⟩
  unfold Task.destructor
  dsimp only
  rw [runOps_handle]

/-- C9, evaluated: a task that was configured but never started, with a driver
that answers every call with -1, is destroyed without failure and with one
release call at the end of the trace. -/
theorem destructor_releases_once_witness :
    ((runOps vendor64 (constDriver (-1) 0 [] []) [Op.AddChannel 1 2 0, Op.GetChannelCount] []
        task7).1.destructor (constDriver (-1) 0 [] [])
      (runOps vendor64 (constDriver (-1) 0 [] []) [Op.AddChannel 1 2 0, Op.GetChannelCount] []
        task7).2).1 = .ok () ∧
    ((runOps vendor64 (constDriver (-1) 0 [] []) [Op.AddChannel 1 2 0, Op.GetChannelCount] []
        task7).1.destructor (constDriver (-1) 0 [] [])
      (runOps vendor64 (constDriver (-1) 0 [] []) [Op.AddChannel 1 2 0, Op.GetChannelCount] []
        task7).2).2 =
      [.DAQmxCreateAIVoltageChan 7 "/Dev1/ai2" none 10083 (Double.lit 10 1).neg (Double.lit 10 1)
        10348 none, .DAQmxGetTaskNumChans 7, .DAQmxClearTask 7] :=
  ⟨(destructor_releases_once vendor64 (constDriver (-1) 0 [] [])
      [] task7 [Op.AddChannel 1 2 0, Op.GetChannelCount]).1,
    ((destructor_releases_once vendor64 (constDriver (-1) 0 [] [])
      [] task7 [Op.AddChannel 1 2 0, Op.GetChannelCount]).2.1).trans (by decide)⟩

/-! ## C8: the physical channel and line names -/

/-- C8: for all integers `deviceIndex`, `portIndex` and `triggerPort`, an
`AddChannel(deviceIndex, portIndex, range)` with a valid range (one that has a
limit `L`) passes to the driver the physical-channel string `"/Dev" ++ decimal deviceIndex ++ "/ai" ++
decimal portIndex`; and a later `SetupTrigger(triggerPort, edge, _)` with a valid
edge, made after any member calls that are not `AddChannel` (so that this
`AddChannel` is the most recent one), passes to the driver, once its first two
driver calls have succeeded, the line string `"/Dev" ++ decimal deviceIndex ++
"/PFI" ++ decimal triggerPort`. -/
theorem physical_names (P : Platform) (d : Driver) (tr : List DriverCall) (self : Task)
    (deviceIndex portIndex range triggerPort edge : Int) (gate : Double) (ops : List Op)
    (t2 : Task) (tr2 : List DriverCall)
    (L : Double) (hrange : limVal range = some L)
    (hops : ∀ op ∈ ops, op.isAddChannel = false)
    (hedge : edge = P.DAQmx_Val_Rising ∨ edge = P.DAQmx_Val_Falling)
    (h2 : (t2, tr2) = runOps P d ops (self.AddChannel P d tr deviceIndex portIndex range).trace
      (self.AddChannel P d tr deviceIndex portIndex range).task)
    (hs1 : 0 ≤ (d tr2 (.DAQmxSetStartTrigDelayUnits self.m_handle P.DAQmx_Val_Seconds)).status.val)
    (hs2 : 0 ≤ (d (tr2 ++ [.DAQmxSetStartTrigDelayUnits self.m_handle P.DAQmx_Val_Seconds])
      (.DAQmxSetStartTrigDelay self.m_handle ((Double.lit 1 1000000).mul gate))).status.val) :
    (self.AddChannel P d tr deviceIndex portIndex range).trace =
      tr ++ [.DAQmxCreateAIVoltageChan self.m_handle
        ("/Dev" ++ decimal deviceIndex ++ "/ai" ++ decimal portIndex) none P.DAQmx_Val_RSE
        L.neg L P.DAQmx_Val_Volts none] ∧
    (t2.SetupTrigger P d tr2 triggerPort edge gate).trace =
      tr2 ++ [.DAQmxSetStartTrigDelayUnits self.m_handle P.DAQmx_Val_Seconds,
        .DAQmxSetStartTrigDelay self.m_handle ((Double.lit 1 1000000).mul gate),
        .DAQmxCfgDigEdgeStartTrig self.m_handle
          ("/Dev" ++ decimal deviceIndex ++ "/PFI" ++ decimal triggerPort) edge] := by
  have ht2 : t2 = (runOps P d ops (self.AddChannel P d tr deviceIndex portIndex range).trace
      (self.AddChannel P d tr deviceIndex portIndex range).task).1 := by
    rw [← h2]
  have hh : t2.m_handle = self.m_handle := by
    rw [ht2, runOps_handle, AddChannel_task]
  have hd : t2.m_device_num = deviceIndex := by
    rw [ht2, runOps_device_num P d ops _ _ hops, AddChannel_task]
  constructor
  · unfold Task.AddChannel
    simp only [hrange]
    split <;> rfl
  · rw [← hh] at hs1 hs2
    rw [SetupTrigger_third_call P d tr2 t2 triggerPort edge gate hedge hs1 hs2, hh, hd]

set_option maxRecDepth 10000 in
/-- C8, evaluated: `AddChannel(-3, 2, 1)` passes the channel "/Dev-3/ai2", and after
a `Start` and a `Stop`, `SetupTrigger(4, rising, _)` passes the line "/Dev-3/PFI4". -/
theorem physical_names_witness :
    (task7.AddChannel vendor64 (constDriver 0 0 [] []) [] (-3) 2 1).trace =
      [.DAQmxCreateAIVoltageChan 7 "/Dev-3/ai2" none 10083 (Double.lit 5 1).neg (Double.lit 5 1)
        10348 none] ∧
    ((⟨7, -3, 2, 3⟩ : Task).SetupTrigger vendor64 (constDriver 0 0 [] [])
        [.DAQmxCreateAIVoltageChan 7 "/Dev-3/ai2" none 10083 (Double.lit 5 1).neg (Double.lit 5 1)
          10348 none, .DAQmxStartTask 7, .DAQmxStopTask 7] 4 10280 (Double.lit 5 1)).trace =
      [.DAQmxCreateAIVoltageChan 7 "/Dev-3/ai2" none 10083 (Double.lit 5 1).neg (Double.lit 5 1)
          10348 none, .DAQmxStartTask 7, .DAQmxStopTask 7,
        .DAQmxSetStartTrigDelayUnits 7 10364,
        .DAQmxSetStartTrigDelay 7 ((Double.lit 1 1000000).mul (Double.lit 5 1)),
        .DAQmxCfgDigEdgeStartTrig 7 "/Dev-3/PFI4" 10280] :=
  ⟨((physical_names vendor64 (constDriver 0 0 [] []) [] task7 (-3) 2 1 4 10280 (Double.lit 5 1)
      [Op.Start, Op.Stop] ⟨7, -3, 2, 3⟩
      [.DAQmxCreateAIVoltageChan 7 "/Dev-3/ai2" none 10083 (Double.lit 5 1).neg (Double.lit 5 1)
        10348 none, .DAQmxStartTask 7, .DAQmxStopTask 7] (Double.lit 5 1)
      (by decide) (by decide) (by decide) (by decide) (by decide) (by decide)).1).trans (by decide),
    ((physical_names vendor64 (constDriver 0 0 [] []) [] task7 (-3) 2 1 4 10280 (Double.lit 5 1)
      [Op.Start, Op.Stop] ⟨7, -3, 2, 3⟩
      [.DAQmxCreateAIVoltageChan 7 "/Dev-3/ai2" none 10083 (Double.lit 5 1).neg (Double.lit 5 1)
        10348 none, .DAQmxStartTask 7, .DAQmxStopTask 7] (Double.lit 5 1)
      (by decide) (by decide) (by decide) (by decide) (by decide) (by decide)).2).trans (by decide)⟩

/-! ## C10: `AddChannel` stores the indices before it validates -/

/-- C10: `Task::AddChannel` stores its device index and port index in the task
before it validates the range code, so after the call the stored indices equal
its arguments for every range code and every driver, that is in every outcome
(normal return, the plain `runtime_error` for a range outside 0..3, a
`DAQException`); the other members are left as they were.  In particular a
call that throws has still changed the task, and a `SetupTrigger` with a valid
edge that follows it builds the line name of its third driver call from the
device index of that call. -/
theorem AddChannel_stores_indices_first (P : Platform) (d : Driver) (tr : List DriverCall)
    (self : Task) (deviceIndex portIndex range triggerPort edge : Int) (gate : Double) :
    (self.AddChannel P d tr deviceIndex portIndex range).task =
      ⟨self.m_handle, deviceIndex, portIndex, self.m_bufferSize⟩ ∧
    (¬ (range = 0 ∨ range = 1 ∨ range = 2 ∨ range = 3) →
      (self.AddChannel P d tr deviceIndex portIndex range).outcome =
        .throw (.runtime_error "SetubChannel\nIncorrect range") ∧
      (self.AddChannel P d tr deviceIndex portIndex range).task.m_device_num = deviceIndex ∧
      (self.AddChannel P d tr deviceIndex portIndex range).task.m_ai_port = portIndex) ∧
    (edge = P.DAQmx_Val_Rising ∨ edge = P.DAQmx_Val_Falling →
      0 ≤ (d (self.AddChannel P d tr deviceIndex portIndex range).trace
        (.DAQmxSetStartTrigDelayUnits self.m_handle P.DAQmx_Val_Seconds)).status.val →
      0 ≤ (d ((self.AddChannel P d tr deviceIndex portIndex range).trace ++
          [.DAQmxSetStartTrigDelayUnits self.m_handle P.DAQmx_Val_Seconds])
        (.DAQmxSetStartTrigDelay self.m_handle ((Double.lit 1 1000000).mul gate))).status.val →
      ((self.AddChannel P d tr deviceIndex portIndex range).task.SetupTrigger P d
          (self.AddChannel P d tr deviceIndex portIndex range).trace triggerPort edge gate).trace =
        (self.AddChannel P d tr deviceIndex portIndex range).trace ++
          [.DAQmxSetStartTrigDelayUnits self.m_handle P.DAQmx_Val_Seconds,
            .DAQmxSetStartTrigDelay self.m_handle ((Double.lit 1 1000000).mul gate),
            .DAQmxCfgDigEdgeStartTrig self.m_handle
              ("/Dev" ++ decimal deviceIndex ++ "/PFI" ++ decimal triggerPort) edge]) := by
  have ht := AddChannel_task P d tr self deviceIndex portIndex range
  refine ⟨ht, ?_, ?_⟩
  · intro h
    have hv : limVal range = none := (limVal_eq_none_iff range).2 h
    refine ⟨?_, by rw [ht], by rw [ht]⟩
    simp [Task.AddChannel, hv]
  · intro hedge hs1 hs2
    have hh : (self.AddChannel P d tr deviceIndex portIndex range).task.m_handle =
        self.m_handle := by
      rw [ht]
    have hd : (self.AddChannel P d tr deviceIndex portIndex range).task.m_device_num =
        deviceIndex := by
      rw [ht]
    rw [← hh] at hs1 hs2
    rw [SetupTrigger_third_call P d _ _ triggerPort edge gate hedge hs1 hs2, hh, hd]

set_option maxRecDepth 10000 in
/-- C10, evaluated: `AddChannel(5, 1, 9)` on a task whose device index was 0
throws, the task now holds the device index 5 and port index 1, and the
`SetupTrigger` that follows passes the line "/Dev5/PFI2". -/
theorem AddChannel_stores_indices_first_witness :
    (task7.AddChannel vendor64 (constDriver 0 0 [] []) [] 5 1 9).outcome =
      .throw (.runtime_error "SetubChannel\nIncorrect range") ∧
    (task7.AddChannel vendor64 (constDriver 0 0 [] []) [] 5 1 9).task = ⟨7, 5, 1, 3⟩ ∧
    task7.m_device_num = 0 ∧
    ((task7.AddChannel vendor64 (constDriver 0 0 [] []) [] 5 1 9).task.SetupTrigger vendor64
        (constDriver 0 0 [] []) (task7.AddChannel vendor64 (constDriver 0 0 [] []) [] 5 1 9).trace
        2 10280 (Double.lit 5 1)).trace =
      [.DAQmxSetStartTrigDelayUnits 7 10364,
        .DAQmxSetStartTrigDelay 7 ((Double.lit 1 1000000).mul (Double.lit 5 1)),
        .DAQmxCfgDigEdgeStartTrig 7 "/Dev5/PFI2" 10280] :=
  ⟨((AddChannel_stores_indices_first vendor64 (constDriver 0 0 [] []) [] task7 5 1 9 2 10280
      (Double.lit 5 1)).2.1 (by decide)).1,
    (AddChannel_stores_indices_first vendor64 (constDriver 0 0 [] []) [] task7 5 1 9 2 10280
      (Double.lit 5 1)).1,
    rfl,
    ((AddChannel_stores_indices_first vendor64 (constDriver 0 0 [] []) [] task7 5 1 9 2 10280
      (Double.lit 5 1)).2.2 (by decide) (by decide) (by decide)).trans (by decide)⟩

end NIDAQmx
